import Mathlib

/-!
Shallow embedding of the Hive source connector
(`ingestion/src/metadata/ingestion/source/hive.py`): the column
introspection routine `get_columns` installed on the SQL dialect, the
`HiveSource.create` factory and the `HiveSource.prepare` hook.
-/

/-- A character matched by the regex class `\w`: letters, digits and the
underscore. -/
def isWordChar (c : Char) : Bool :=
  c.isAlphanum || c = '_'

/-- `re.search(r"^\w+", s)`: the leading run of word characters of `s`.
The run is empty exactly when `s` does not start with a word character,
in which case the Python call returns no match and `.group(0)` raises. -/
def leadingWordRun (s : String) : String :=
  String.mk (s.toList.takeWhile isWordChar)

/-- Python `str.strip()`: drop leading and trailing whitespace. -/
def pyStrip (s : String) : String :=
  String.mk (((s.toList.dropWhile Char.isWhitespace).reverse.dropWhile
    Char.isWhitespace).reverse)

/-- Python `"%s" % v` for an optional string: `None` prints as `"None"`. -/
def pyStr : Option String → String
  | none => "None"
  | some s => s

/-- `col.strip() if col else None`: an absent or empty field becomes
absent, a non-empty field is stripped (possibly down to the empty
string). -/
def stripField : Option String → Option String
  | none => none
  | some s => if s = "" then none else some (pyStrip s)

/-- A raw introspection row as returned by `_get_table_columns`: three
positional fields (name, type description, comment), each possibly
absent. -/
structure RawRow where
  name : Option String
  typeDesc : Option String
  comment : Option String
deriving DecidableEq

/-- `[col.strip() if col else None for col in row]` on one row. -/
def stripRow (r : RawRow) : RawRow :=
  { name := stripField r.name
    typeDesc := stripField r.typeDesc
    comment := stripField r.comment }

/-- The filter `row[0] and row[0] != "# col_name"`. -/
def keepRow (r : RawRow) : Bool :=
  match r.name with
  | none => false
  | some s => s != "" && s != "# col_name"

/-- Catalog (SQLAlchemy) type identifiers used by the driver's
`_type_map`, plus the fallback `types.NullType`. -/
inductive CatalogType where
  | Boolean
  | TinyInteger
  | SmallInteger
  | Integer
  | BigInteger
  | Float
  | String
  | DATE
  | TIMESTAMP
  | DECIMAL
  | NullType
deriving DecidableEq

/-- Modelled from the spec: the fixed engine-type-to-catalog-type lookup
table (`_type_map` of the external SQL-dialect driver, consumed but not
owned by this repository). Engine-native type tags resolve to catalog
identifiers; the complex tags (struct, map, array, union) resolve to the
catalog string type; an unrecognized tag has no entry. -/
def type_map : String → Option CatalogType
  | "boolean" => some .Boolean
  | "tinyint" => some .TinyInteger
  | "smallint" => some .SmallInteger
  | "int" => some .Integer
  | "bigint" => some .BigInteger
  | "float" => some .Float
  | "double" => some .Float
  | "string" => some .String
  | "varchar" => some .String
  | "char" => some .String
  | "date" => some .DATE
  | "timestamp" => some .TIMESTAMP
  | "binary" => some .String
  | "array" => some .String
  | "map" => some .String
  | "struct" => some .String
  | "union" => some .String
  | "decimal" => some .DECIMAL
  | _ => none

/-- `complex_data_types = ["struct", "map", "array", "union"]`. -/
def complex_data_types : List String := ["struct", "map", "array", "union"]

/-- The column descriptor dict appended to `result` by `get_columns`. -/
structure ColumnDescriptor where
  name : Option String
  type : CatalogType
  comment : Option String
  nullable : Bool
  default : Option String
  raw_data_type : Option String
deriving DecidableEq

/-- The diagnostic `util.warn("Did not recognize type '%s' of column
'%s'" % (col_type, col_name))`, recorded as the unrecognized type tag and
the column name it mentions. -/
structure Warning where
  typeName : String
  columnName : String
deriving DecidableEq

/-- The dict appended to `result` for one row, given the row (after
stripping), its full type description `t` and the resolved catalog type:
`nullable` is always true, `default` always absent, and `raw_data_type`
is the untruncated description exactly when the extracted tag is in
`complex_data_types`. -/
def mkDescriptor (r : RawRow) (t : String) (ct : CatalogType) : ColumnDescriptor :=
  { name := r.name
    type := ct
    comment := r.comment
    nullable := true
    default := none
    raw_data_type :=
      if leadingWordRun t ∈ complex_data_types then some t else none }

/-- The loop body of `get_columns` for one row that is not the partition
marker: extract the type tag (`none` models the uncaught exception when
the type description is absent or does not start with a word character),
resolve it through the lookup table — falling back to `NullType` with one
warning on a missing entry — and build the descriptor. -/
def processRow (r : RawRow) : Option (ColumnDescriptor × List Warning) :=
  match r.typeDesc with
  | none => none
  | some t =>
    if leadingWordRun t = "" then none
    else
      match type_map (leadingWordRun t) with
      | some ct => some (mkDescriptor r t ct, [])
      | none => some (mkDescriptor r t CatalogType.NullType,
                      [⟨leadingWordRun t, pyStr r.name⟩])

/-- The `for` loop of `get_columns`: a hard stop at the row whose first
field is `"# Partition Information"`, otherwise each row is processed in
order; `none` models an uncaught exception aborting the call. -/
def processRows : List RawRow → Option (List ColumnDescriptor × List Warning)
  | [] => some ([], [])
  | r :: rs =>
    if r.name = some "# Partition Information" then some ([], [])
    else
      match processRow r with
      | none => none
      | some (d, ws) =>
        match processRows rs with
        | none => none
        | some (ds, ws2) => some (d :: ds, ws ++ ws2)

/-- `get_columns`, as a function of the raw rows returned by
`_get_table_columns`: strip every field, drop rows with an empty/absent
first field or the `"# col_name"` header, then run the main loop.
`none` models an uncaught exception; otherwise the result carries the
descriptor list and the warnings emitted. -/
def get_columns (rows : List RawRow) : Option (List ColumnDescriptor × List Warning) :=
  processRows ((rows.map stripRow).filter keepRow)

/-- Modelled from the spec: the server configuration object handed to
`create`; none of its fields are visible in this excerpt. -/
structure OpenMetadataServerConfig where
  hostPort : String
deriving DecidableEq

/-- Modelled from the spec: the connection-specific configuration of the
expected (Hive) kind, with the mutable `database` selection and the rest
of its fields kept abstract as key/value pairs. -/
structure HiveSQLConnectionData where
  database : Option String
  otherSettings : List (String × String)
deriving DecidableEq

/-- Modelled from the spec: the nested connection config
(`config.serviceConnection.__root__.config`), a union of connection
kinds; only the Hive kind is expected here. A non-Hive kind carries the
text its object prints as in the error message. -/
inductive ConnectionConfig where
  | hive (c : HiveSQLConnectionData)
  | other (shown : String)
deriving DecidableEq

/-- Modelled from the spec: the parsed workflow source configuration; the
piece `create` inspects is the nested connection config, the rest is kept
abstract as key/value pairs. -/
structure WorkflowSource where
  connectionConfig : ConnectionConfig
  otherConfig : List (String × String)
deriving DecidableEq

/-- The connector instance: the bound configuration, the server config,
and the `service_connection` state that `prepare` mutates. -/
structure HiveSource where
  config : WorkflowSource
  metadata_config : OpenMetadataServerConfig
  service_connection : HiveSQLConnectionData
deriving DecidableEq

/-- `HiveSource.create` after parsing: check the runtime kind of the
nested connection config; on a mismatch fail with the invalid-source
error naming the expected and the actual type, otherwise return the
connector bound to the validated configuration. -/
def HiveSource.create (config : WorkflowSource)
    (metadata_config : OpenMetadataServerConfig) : Except String HiveSource :=
  match config.connectionConfig with
  | .hive c =>
      .ok { config := config
            metadata_config := metadata_config
            service_connection := c }
  | .other shown =>
      .error ("Expected HiveSQLConnection, but got " ++ shown)

/-- The mutation `self.service_connection.database = "default"` performed
by `HiveSource.prepare`. -/
def prepareMutation (s : HiveSource) : HiveSource :=
  { s with service_connection :=
      { s.service_connection with database := some "default" } }

/-- Modelled from the spec: `HiveSource.prepare` forces the database
selection to the fixed default namespace and then defers to the base
preparation logic (`super().prepare()`), kept abstract here. -/
def HiveSource.prepare (basePrepare : HiveSource → HiveSource)
    (s : HiveSource) : HiveSource :=
  basePrepare (prepareMutation s)

/-! ## Helper lemmas -/

/-- Hitting the partition marker stops the loop: everything from the
marker on contributes nothing, so the loop's value is that of the rows
before the marker. -/
theorem processRows_append_partition (pre : List RawRow) (p : RawRow)
    (post : List RawRow) (hp : p.name = some "# Partition Information") :
    processRows (pre ++ p :: post) = processRows pre := by
  induction pre with
  | nil => simp [processRows, hp]
  | cons r rs ih =>
    simp only [List.cons_append, processRows, List.append_eq, ih]

/-- A row whose extraction step fails aborts the whole loop, provided the
partition marker does not appear before it. -/
theorem processRows_append_bad (pre : List RawRow) (r : RawRow)
    (post : List RawRow)
    (hpre : ∀ q ∈ pre, ¬ q.name = some "# Partition Information")
    (hr : ¬ r.name = some "# Partition Information")
    (hbad : processRow r = none) :
    processRows (pre ++ r :: post) = none := by
  induction pre with
  | nil => simp [processRows, hr, hbad]
  | cons q qs ih =>
    have hq : ¬ q.name = some "# Partition Information" := hpre q (by simp)
    have ih2 : processRows (qs ++ r :: post) = none :=
      ih (fun x hx => hpre x (by simp [hx]))
    rcases hpq : processRow q with _ | ⟨d, ws⟩
    · simp [processRows, if_neg hq, hpq]
    · simp [processRows, if_neg hq, hpq, ih2]

/-- Every descriptor built by the loop body has `nullable = true` and no
`default`. -/
theorem processRow_fields (r : RawRow) (d : ColumnDescriptor)
    (ws : List Warning) (h : processRow r = some (d, ws)) :
    d.nullable = true ∧ d.default = none := by
  unfold processRow at h
  split at h
  · exact absurd h (by simp)
  · split at h
    · exact absurd h (by simp)
    · split at h
      · simp only [Option.some.injEq, Prod.mk.injEq] at h
        obtain ⟨h1, _⟩ := h
        subst h1
        exact ⟨rfl, rfl⟩
      · simp only [Option.some.injEq, Prod.mk.injEq] at h
        obtain ⟨h1, _⟩ := h
        subst h1
        exact ⟨rfl, rfl⟩

/-- Every descriptor built by the loop body records the row's name and
comment, and its `raw_data_type` is the row's untruncated type
description exactly when the extracted tag is a complex type. -/
theorem processRow_origin (r : RawRow) (d : ColumnDescriptor)
    (ws : List Warning) (h : processRow r = some (d, ws)) :
    ∃ t : String, r.typeDesc = some t ∧ d.name = r.name ∧
      d.comment = r.comment ∧
      d.raw_data_type =
        (if leadingWordRun t ∈ complex_data_types then some t else none) := by
  unfold processRow at h
  split at h
  · exact absurd h (by simp)
  next t ht =>
    split at h
    · exact absurd h (by simp)
    · split at h
      · simp only [Option.some.injEq, Prod.mk.injEq] at h
        obtain ⟨h1, _⟩ := h
        subst h1
        exact ⟨t, ht, rfl, rfl, rfl⟩
      · simp only [Option.some.injEq, Prod.mk.injEq] at h
        obtain ⟨h1, _⟩ := h
        subst h1
        exact ⟨t, ht, rfl, rfl, rfl⟩

/-- Membership version of `processRow_fields` over the whole loop. -/
theorem processRows_fields (l : List RawRow) (ds : List ColumnDescriptor)
    (ws : List Warning) (h : processRows l = some (ds, ws)) :
    ∀ d ∈ ds, d.nullable = true ∧ d.default = none := by
  induction l generalizing ds ws with
  | nil =>
    simp only [processRows, Option.some.injEq, Prod.mk.injEq] at h
    obtain ⟨h1, _⟩ := h
    subst h1
    intro d hd
    exact absurd hd (by simp)
  | cons r rs ih =>
    unfold processRows at h
    split at h
    · simp only [Option.some.injEq, Prod.mk.injEq] at h
      obtain ⟨h1, _⟩ := h
      subst h1
      intro d hd
      exact absurd hd (by simp)
    · rcases hp : processRow r with _ | ⟨d0, w0⟩
      · rw [hp] at h
        exact absurd h (by simp)
      · rw [hp] at h
        rcases hps : processRows rs with _ | ⟨ds0, ws0⟩
        · rw [hps] at h
          exact absurd h (by simp)
        · rw [hps] at h
          simp only [Option.some.injEq, Prod.mk.injEq] at h
          obtain ⟨h1, _⟩ := h
          subst h1
          intro d hd
          rcases List.mem_cons.mp hd with h3 | h3
          · subst h3
            exact processRow_fields r d w0 hp
          · exact ih ds0 ws0 hps d h3

/-- Membership version of `processRow_origin` over the whole loop: each
descriptor originates from some row of the processed list. -/
theorem processRows_origin (l : List RawRow) (ds : List ColumnDescriptor)
    (ws : List Warning) (h : processRows l = some (ds, ws)) :
    ∀ d ∈ ds, ∃ r ∈ l, ∃ t : String, r.typeDesc = some t ∧
      d.name = r.name ∧
      d.raw_data_type =
        (if leadingWordRun t ∈ complex_data_types then some t else none) := by
  induction l generalizing ds ws with
  | nil =>
    simp only [processRows, Option.some.injEq, Prod.mk.injEq] at h
    obtain ⟨h1, _⟩ := h
    subst h1
    intro d hd
    exact absurd hd (by simp)
  | cons r rs ih =>
    unfold processRows at h
    split at h
    · simp only [Option.some.injEq, Prod.mk.injEq] at h
      obtain ⟨h1, _⟩ := h
      subst h1
      intro d hd
      exact absurd hd (by simp)
    · rcases hp : processRow r with _ | ⟨d0, w0⟩
      · rw [hp] at h
        exact absurd h (by simp)
      · rw [hp] at h
        rcases hps : processRows rs with _ | ⟨ds0, ws0⟩
        · rw [hps] at h
          exact absurd h (by simp)
        · rw [hps] at h
          simp only [Option.some.injEq, Prod.mk.injEq] at h
          obtain ⟨h1, _⟩ := h
          subst h1
          intro d hd
          rcases List.mem_cons.mp hd with h3 | h3
          · subst h3
            obtain ⟨t, ht, h4, _, h5⟩ := processRow_origin r d w0 hp
            exact ⟨r, by simp, t, ht, h4, h5⟩
          · obtain ⟨q, hq, t, ht, h4, h5⟩ := ih ds0 ws0 hps d h3
            exact ⟨q, by simp [hq], t, ht, h4, h5⟩

/-- The head of what `dropWhile` leaves does not satisfy the predicate. -/
theorem head_dropWhile_false {α : Type} (p : α → Bool) (l : List α) :
    ∀ c, ((l.dropWhile p).head? = some c) → p c = false := by
  induction l with
  | nil =>
    intro c h
    exact absurd h (by simp)
  | cons a as ih =>
    intro c h
    by_cases hp : p a
    · rw [List.dropWhile_cons_of_pos hp] at h
      exact ih c h
    · rw [List.dropWhile_cons_of_neg hp] at h
      simp only [List.head?_cons, Option.some.injEq] at h
      subst h
      simpa using hp

/-! ## Claim theorems -/

/-- C1: if some row surviving the empty/header filter has first field
`"# Partition Information"`, `get_columns` stops there: that row and
every row after it contribute no descriptor — the result is exactly that
of the rows before the marker. -/
theorem get_columns_stops_at_partition_information
    (rows pre post : List RawRow) (p : RawRow)
    (hsplit : (rows.map stripRow).filter keepRow = pre ++ p :: post)
    (hp : p.name = some "# Partition Information") :
    get_columns rows = processRows pre := by
  rw [get_columns, hsplit]
  exact processRows_append_partition pre p post hp

theorem get_columns_stops_at_partition_information_witness :
    get_columns [⟨some "a", some "int", none⟩,
                 ⟨some "# Partition Information", none, none⟩,
                 ⟨some "b", some "int", none⟩] =
      processRows [⟨some "a", some "int", none⟩] :=
  get_columns_stops_at_partition_information
    [⟨some "a", some "int", none⟩,
     ⟨some "# Partition Information", none, none⟩,
     ⟨some "b", some "int", none⟩]
    [⟨some "a", some "int", none⟩]
    [⟨some "b", some "int", none⟩]
    ⟨some "# Partition Information", none, none⟩ (by rfl) (by rfl)

/-- C2: a row whose first field is (after trimming) absent, empty or the
`"# col_name"` header marker is dropped before the loop, so its presence
anywhere in the input changes nothing — in particular it never triggers
or shifts the partition hard stop. -/
theorem get_columns_drops_empty_and_header_rows
    (pre post : List RawRow) (r : RawRow)
    (h : stripField r.name = none ∨ stripField r.name = some "" ∨
         stripField r.name = some "# col_name") :
    get_columns (pre ++ r :: post) = get_columns (pre ++ post) := by
  have hk : keepRow (stripRow r) = false := by
    rcases h with h | h | h <;> simp [keepRow, stripRow, h]
  simp [get_columns, List.map_append, List.filter_append, hk]

theorem get_columns_drops_empty_and_header_rows_witness :
    get_columns [⟨some "a", some "int", none⟩,
                 ⟨some "# col_name", some "x", none⟩,
                 ⟨some "b", some "string", none⟩] =
      get_columns [⟨some "a", some "int", none⟩,
                   ⟨some "b", some "string", none⟩] :=
  get_columns_drops_empty_and_header_rows
    [⟨some "a", some "int", none⟩]
    [⟨some "b", some "string", none⟩]
    ⟨some "# col_name", some "x", none⟩
    (Or.inr (Or.inr (by rfl)))

/-- C3: the type tag used for the lookup is the leading word-character
run of the type description: every character of `leadingWordRun s` is a
word character, it is a prefix of `s` whose removal leaves a remainder
not starting with a word character, and the descriptor type resolved by
the loop body is the lookup of exactly that run (with the `NullType`
fallback). -/
theorem type_tag_is_leading_word_run (s : String) :
    (∀ c ∈ (leadingWordRun s).toList, isWordChar c = true) ∧
    (leadingWordRun s).toList ++ s.toList.dropWhile isWordChar = s.toList ∧
    (∀ c, (s.toList.dropWhile isWordChar).head? = some c → isWordChar c = false) ∧
    (∀ (r : RawRow) (d : ColumnDescriptor) (ws : List Warning),
      r.typeDesc = some s → processRow r = some (d, ws) →
      d.type = (type_map (leadingWordRun s)).getD CatalogType.NullType) := by
  refine ⟨?_, ?_, ?_, ?_⟩
  · intro c hc
    exact List.mem_takeWhile_imp hc
  · exact List.takeWhile_append_dropWhile isWordChar s.toList
  · exact head_dropWhile_false isWordChar s.toList
  · intro r d ws ht h
    unfold processRow at h
    split at h
    · exact absurd h (by simp)
    next t ht2 =>
      have hts : t = s := by
        rw [ht] at ht2
        exact (Option.some.inj ht2).symm
      subst hts
      split at h
      · exact absurd h (by simp)
      · split at h
        next ct hct =>
          simp only [Option.some.injEq, Prod.mk.injEq] at h
          obtain ⟨h1, _⟩ := h
          subst h1
          simp [mkDescriptor, hct]
        next hct =>
          simp only [Option.some.injEq, Prod.mk.injEq] at h
          obtain ⟨h1, _⟩ := h
          subst h1
          simp [mkDescriptor, hct]

/-- C4: every descriptor `get_columns` produces originates from a
retained row, and its `raw_data_type` equals that row's original
untruncated type description exactly when the extracted tag is in the
complex-type set {struct, map, array, union}; otherwise it is absent. -/
theorem raw_data_type_iff_complex
    (rows : List RawRow) (ds : List ColumnDescriptor) (ws : List Warning)
    (h : get_columns rows = some (ds, ws)) (d : ColumnDescriptor)
    (hd : d ∈ ds) :
    ∃ r ∈ (rows.map stripRow).filter keepRow, ∃ t : String,
      r.typeDesc = some t ∧ d.name = r.name ∧
      d.raw_data_type =
        (if leadingWordRun t ∈ complex_data_types then some t else none) :=
  processRows_origin ((rows.map stripRow).filter keepRow) ds ws h d hd

theorem raw_data_type_iff_complex_witness :
    ∃ r ∈ (([⟨some "data", some "array<string>", none⟩] : List RawRow).map
            stripRow).filter keepRow,
      ∃ t : String, r.typeDesc = some t ∧
        (⟨some "data", CatalogType.String, none, true, none,
          some "array<string>"⟩ : ColumnDescriptor).name = r.name ∧
        (⟨some "data", CatalogType.String, none, true, none,
          some "array<string>"⟩ : ColumnDescriptor).raw_data_type =
          (if leadingWordRun t ∈ complex_data_types then some t else none) :=
  raw_data_type_iff_complex [⟨some "data", some "array<string>", none⟩]
    [⟨some "data", CatalogType.String, none, true, none,
      some "array<string>"⟩] [] (by rfl)
    ⟨some "data", CatalogType.String, none, true, none,
      some "array<string>"⟩ (by simp)

/-- C5: a retained row whose extracted tag has no entry in the lookup
table does not make `get_columns` fail: the loop emits exactly one
warning naming that tag and the column name, falls back to the `NullType`
marker as the descriptor's type, and still includes the descriptor. -/
theorem unknown_type_warns_and_falls_back
    (r : RawRow) (rs : List RawRow) (t : String)
    (ds : List ColumnDescriptor) (ws : List Warning)
    (hname : ¬ r.name = some "# Partition Information")
    (ht : r.typeDesc = some t)
    (htag : ¬ leadingWordRun t = "")
    (hmiss : type_map (leadingWordRun t) = none)
    (hrest : processRows rs = some (ds, ws)) :
    processRows (r :: rs) =
      some (mkDescriptor r t CatalogType.NullType :: ds,
            ⟨leadingWordRun t, pyStr r.name⟩ :: ws) := by
  simp [processRows, processRow, hname, ht, htag, hmiss, hrest]

theorem unknown_type_warns_and_falls_back_witness :
    processRows [⟨some "c", some "interval(3)", none⟩] =
      some ([mkDescriptor ⟨some "c", some "interval(3)", none⟩ "interval(3)"
              CatalogType.NullType],
            [⟨"interval", "c"⟩]) :=
  unknown_type_warns_and_falls_back
    ⟨some "c", some "interval(3)", none⟩ [] "interval(3)" [] []
    (by decide) (by rfl) (by decide) (by rfl) (by rfl)

/-- C6: every descriptor `get_columns` produces has `nullable = true` and
an absent `default`, whatever the input rows contained. -/
theorem descriptors_nullable_no_default
    (rows : List RawRow) (ds : List ColumnDescriptor) (ws : List Warning)
    (h : get_columns rows = some (ds, ws)) (d : ColumnDescriptor)
    (hd : d ∈ ds) :
    d.nullable = true ∧ d.default = none :=
  processRows_fields ((rows.map stripRow).filter keepRow) ds ws h d hd

theorem descriptors_nullable_no_default_witness :
    (⟨some "id", CatalogType.Integer, none, true, none, none⟩ :
      ColumnDescriptor).nullable = true ∧
    (⟨some "id", CatalogType.Integer, none, true, none, none⟩ :
      ColumnDescriptor).default = none :=
  descriptors_nullable_no_default [⟨some "id", some "int", none⟩]
    [⟨some "id", CatalogType.Integer, none, true, none, none⟩] [] (by rfl)
    ⟨some "id", CatalogType.Integer, none, true, none, none⟩ (by simp)

/-- C7: on the concrete input rows `[("id", "int", None),
("data", "array<string>", "nested"), ("# Partition Information", "",
None), ("dt", "string", None)]`, `get_columns` returns exactly the two
descriptors for `id` (integer type, no `raw_data_type`) and `data`
(string catalog type for `array`, `raw_data_type = "array<string>"`),
both nullable with no default, no warnings; the `dt` row is excluded. -/
theorem get_columns_concrete_scenario :
    get_columns [⟨some "id", some "int", none⟩,
                 ⟨some "data", some "array<string>", some "nested"⟩,
                 ⟨some "# Partition Information", some "", none⟩,
                 ⟨some "dt", some "string", none⟩] =
      some ([⟨some "id", CatalogType.Integer, none, true, none, none⟩,
             ⟨some "data", CatalogType.String, some "nested", true, none,
              some "array<string>"⟩], []) := by
  rfl

/-- C8: `create` fails with the invalid-source error naming the expected
and actual type when the nested connection config is not of the Hive
kind, and succeeds with a connector bound to the validated configuration
when it is. -/
theorem create_checks_connection_kind
    (cfg : WorkflowSource) (mc : OpenMetadataServerConfig) :
    (∀ s, cfg.connectionConfig = .other s →
      HiveSource.create cfg mc =
        .error ("Expected HiveSQLConnection, but got " ++ s)) ∧
    (∀ c, cfg.connectionConfig = .hive c →
      HiveSource.create cfg mc =
        .ok { config := cfg, metadata_config := mc,
              service_connection := c }) := by
  constructor
  · intro s hs
    simp [HiveSource.create, hs]
  · intro c hc
    simp [HiveSource.create, hc]

/-- C9: the state change `prepare` performs before delegating is exactly
setting the service connection's database to `"default"`: every other
piece of the connector state is unchanged, and `prepare` is the base
preparation applied to that mutated state. -/
theorem prepare_sets_only_database (s : HiveSource) :
    (prepareMutation s).service_connection.database = some "default" ∧
    (prepareMutation s).service_connection.otherSettings =
      s.service_connection.otherSettings ∧
    (prepareMutation s).config = s.config ∧
    (prepareMutation s).metadata_config = s.metadata_config ∧
    ∀ basePrepare, HiveSource.prepare basePrepare s =
      basePrepare (prepareMutation s) :=
  ⟨rfl, rfl, rfl, rfl, fun _ => rfl⟩

/-- C10: `get_columns` is not total: when a retained row (not the
partition marker, not preceded by the marker) has a type description that
is absent or does not begin with a word character, the extraction step
fails and the whole call aborts (the Python regex match is `None` and
`.group(0)` raises). -/
theorem get_columns_not_total
    (rows pre post : List RawRow) (r : RawRow)
    (hsplit : (rows.map stripRow).filter keepRow = pre ++ r :: post)
    (hpre : ∀ q ∈ pre, ¬ q.name = some "# Partition Information")
    (hr : ¬ r.name = some "# Partition Information")
    (hbad : r.typeDesc = none ∨
            ∃ t, r.typeDesc = some t ∧ leadingWordRun t = "") :
    get_columns rows = none := by
  have hb : processRow r = none := by
    rcases hbad with h | ⟨t, ht, h0⟩
    · simp [processRow, h]
    · simp [processRow, ht, h0]
  rw [get_columns, hsplit]
  exact processRows_append_bad pre r post hpre hr hb

theorem get_columns_not_total_witness :
    get_columns [⟨some "x", some "<bad>", none⟩] = none :=
  get_columns_not_total [⟨some "x", some "<bad>", none⟩] [] []
    ⟨some "x", some "<bad>", none⟩ (by rfl) (by simp) (by simp)
    (Or.inr ⟨"<bad>", by rfl, by rfl⟩)
